import Mathlib

/-!
Shallow embedding of the bms-go book-catalog service.

The embedding translates the repository layer
(internal/infra/repository/book_repository.go,
internal/infra/repository/favorite_repository.go), the service layer
(BookService, FavoriteService) and the handler-level input validation
(BookHandler.validateBookRequest, FavoriteHandler.validateFavoriteRequest)
into pure Lean functions over an explicit database state.

Modelling conventions:
- The persistence layer is a list of rows.  A GORM query chain is modelled
  by the SQL it finally executes: Where clauses become filters, Order
  clauses become a sort, Limit and Offset become take and drop.  A call to
  gorm.DB.Raw replaces the whole accumulated statement, so from that point
  only the raw SQL counts; this is visible below wherever a branch of a
  repository function ignores the filters that the Go code built earlier.
- SQL string matching is modelled code-point-exactly (the collation of the
  underlying database is abstracted away): column LIKE "%x%" is substring
  containment of x, column LIKE "x%" is the prefix test, and = is equality.
- ORDER BY is modelled with a stable insertion sort; SQL leaves the order
  of rows that compare equal unspecified, and this embedding fixes one
  such order.
- Go machine integers never approach their bounds here, so they are
  modelled as Nat (identifiers, lengths) and Int (limit and offset).
- Timestamps are abstract Nat ticks: the state carries a current time
  `now` used for the created-at and soft-deleted-at columns.
-/

/-! ## Go string primitives (strings package), modelled on rune lists -/

/-- Substring containment test on rune lists: true when the needle occurs
contiguously inside the haystack.  Models SQL LIKE with a pattern wrapped
in percent signs, and Go strings.Contains. -/
def charListHasSubstring : List Char → List Char → Bool
  | hs, needle =>
    if needle.isPrefixOf hs then true
    else match hs with
      | [] => false
      | _ :: t => charListHasSubstring t needle

/-- Column LIKE "%sub%": the column value contains sub as a substring. -/
def likeContains (s sub : String) : Bool := charListHasSubstring s.data sub.data

/-- Column LIKE "pre%": the column value starts with pre. -/
def likeStartsWith (s pre : String) : Bool := pre.data.isPrefixOf s.data

/-- Worker for goReplaceAll.  The Nat argument counts runes still to be
copied verbatim because they belong to an occurrence that was already
replaced. -/
def replaceAllAux (pat rep : List Char) : List Char → Nat → List Char
  | [], _ => []
  | _ :: cs, Nat.succ skip => replaceAllAux pat rep cs skip
  | c :: cs, 0 =>
    if pat ≠ [] && pat.isPrefixOf (c :: cs) then
      rep ++ replaceAllAux pat rep cs (pat.length - 1)
    else
      c :: replaceAllAux pat rep cs 0

/-- Go strings.Replace(s, pat, rep, -1): replace every leftmost
non-overlapping occurrence of pat by rep.  The code below only calls it
with non-empty pat; for an empty pat this model is the identity. -/
def goReplaceAll (s pat rep : String) : String := ⟨replaceAllAux pat.data rep.data s.data 0⟩

/-- Worker for goFields, accumulating the current word reversed. -/
def goFieldsAux (cur : List Char) : List Char → List String
  | [] => if cur.isEmpty then [] else [⟨cur.reverse⟩]
  | c :: cs =>
    if c.isWhitespace then
      if cur.isEmpty then goFieldsAux [] cs else (⟨cur.reverse⟩ : String) :: goFieldsAux [] cs
    else goFieldsAux (c :: cur) cs

/-- Go strings.Fields: split around runs of whitespace, dropping empties. -/
def goFields (s : String) : List String := goFieldsAux [] s.data

/-- Go strings.TrimSpace: drop leading and trailing whitespace. -/
def goTrimSpace (s : String) : String :=
  ⟨((s.data.dropWhile Char.isWhitespace).reverse.dropWhile Char.isWhitespace).reverse⟩

/-- Go strings.ToLower. -/
def goToLower (s : String) : String := ⟨s.data.map Char.toLower⟩

/-- Code-point lexicographic comparison of rune lists (the order the
abstracted collation gives to ORDER BY on a text column). -/
def charListLe : List Char → List Char → Bool
  | [], _ => true
  | _ :: _, [] => false
  | a :: as, b :: bs =>
    if a.toNat < b.toNat then true
    else if b.toNat < a.toNat then false
    else charListLe as bs

/-- Lexicographic order on strings used to model ORDER BY column ASC. -/
def strLe (a b : String) : Bool := charListLe a.data b.data

/-! ## Data model (internal/model, database-schema.sql) -/

/-- A row of the books table: gorm.Model fields plus title, author and
category.  deletedAt is the soft-deletion timestamp; a row with
deletedAt set is logically absent. -/
structure Book where
  id : Nat
  title : String
  author : String
  category : String
  createdAt : Nat
  updatedAt : Nat
  deletedAt : Option Nat
deriving DecidableEq

/-- A row of the favorites table (model.Favorite embeds gorm.Model, so it
also carries a soft-deletion column). -/
structure Favorite where
  id : Nat
  userID : Nat
  bookID : Nat
  createdAt : Nat
  deletedAt : Option Nat
deriving DecidableEq

/-- deleted_at IS NULL. -/
def Book.alive (b : Book) : Bool := b.deletedAt.isNone

/-- deleted_at IS NULL for a favorites row. -/
def Favorite.alive (f : Favorite) : Bool := f.deletedAt.isNone

/-- The rows a books query sees after Where("deleted_at IS NULL") / the
implicit GORM soft-delete scope. -/
def aliveBooks (books : List Book) : List Book := books.filter Book.alive

/-- The rows a favorites query sees under the GORM soft-delete scope. -/
def aliveFavorites (favs : List Favorite) : List Favorite := favs.filter Favorite.alive

/-- repository.AdvancedSearchParams. -/
structure AdvancedSearchParams where
  query : String
  category : String
  author : String
  searchType : String
  sortBy : String
  sortOrder : String
  limit : Int
  offset : Int
deriving DecidableEq

/-- dto.BookRequest. -/
structure BookRequest where
  title : String
  author : String
  category : String
deriving DecidableEq

/-- dto.FavoriteRequest. -/
structure FavoriteRequest where
  bookID : Nat
deriving DecidableEq

/-- handler.ValidationError. -/
structure ValidationError where
  field : String
  message : String
deriving DecidableEq

/-- dto.BookResponse. -/
structure BookResponse where
  id : Nat
  title : String
  author : String
  category : String
  createdAt : Nat
  updatedAt : Nat
deriving DecidableEq

/-- dto.FavoriteResponse (the Book pointer is always populated on the
paths modelled here). -/
structure FavoriteResponse where
  id : Nat
  userID : Nat
  bookID : Nat
  createdAt : Nat
  book : BookResponse
deriving DecidableEq

/-- The persistent state: the two tables, the auto-increment counters and
the current clock tick. -/
structure DB where
  books : List Book
  favorites : List Favorite
  nextBookID : Nat
  nextFavoriteID : Nat
  now : Nat
deriving DecidableEq

/-! ## SQL building blocks -/

/-- ORDER BY with the given row comparison (stable determinization of the
SQL sort). -/
def sqlOrderBy (le : Book → Book → Bool) (rows : List Book) : List Book :=
  List.insertionSort (fun a b => le a b = true) rows

/-- GORM First with a Where condition: ORDER BY id LIMIT 1 over the
matching rows. -/
def sqlFirstBook (cond : Book → Bool) (books : List Book) : Option Book :=
  (sqlOrderBy (fun a b => decide (a.id ≤ b.id)) (books.filter cond)).head?

/-- LIMIT and OFFSET as issued by BookRepository.AdvancedSearch: the Limit
clause is added when params.Limit > 0 and the Offset clause when
params.Offset > 0; SQL applies OFFSET before LIMIT. -/
def paginate (limit offset : Int) (rows : List Book) : List Book :=
  let rows := if offset > 0 then rows.drop offset.toNat else rows
  if limit > 0 then rows.take limit.toNat else rows

/-! ## BookRepository (internal/infra/repository/book_repository.go) -/

/-- The five-strategy search condition of BookRepository.FindAll
(exact title, title prefix, title contains, author contains, category
contains, joined by OR). -/
def findAllCondition (search : String) (b : Book) : Bool :=
  b.title == search || likeStartsWith b.title search || likeContains b.title search ||
  likeContains b.author search || likeContains b.category search

/-- The CASE relevance rank of the raw ORDER BY used by both FindAll and
AdvancedSearch: 1 exact title, 2 title prefix, 3 title contains, 4 author
contains, 5 otherwise. -/
def relevanceRank (queryTerm : String) (b : Book) : Nat :=
  if b.title == queryTerm then 1
  else if likeStartsWith b.title queryTerm then 2
  else if likeContains b.title queryTerm then 3
  else if likeContains b.author queryTerm then 4
  else 5

/-- ORDER BY CASE ... END, title ASC: relevance rank first, then title. -/
def relevanceLe (queryTerm : String) (a b : Book) : Bool :=
  relevanceRank queryTerm a < relevanceRank queryTerm b ||
  (relevanceRank queryTerm a == relevanceRank queryTerm b && strLe a.title b.title)

/-- BookRepository.FindAll.  For a non-empty search the function ends by
issuing a raw statement; in GORM, Raw replaces the accumulated query, so
the category Where clause built earlier is dropped and only the raw SQL
(five-way OR over non-deleted rows, ordered by relevance rank then title)
executes. -/
def bookFindAll (search category : String) (books : List Book) : List Book :=
  if search != "" then
    let s := goTrimSpace search
    sqlOrderBy (relevanceLe s) ((aliveBooks books).filter (findAllCondition s))
  else if category != "" then
    (aliveBooks books).filter (fun b => b.category == goTrimSpace category)
  else
    aliveBooks books

/-- The substitution table of BookRepository.generateVariations.  The Go
source builds it as a map and iterates it in unspecified order; this
embedding fixes the textual order of the source. -/
def substitutions : List (String × List String) :=
  [("har", ["harr", "harry"]),
   ("pot", ["pott", "potter"]),
   ("lord", ["lords"]),
   ("ring", ["rings", "ring"]),
   ("game", ["gaming"]),
   ("throne", ["thrones"])]

/-- BookRepository.generateVariations: lowercase the term, then for every
table key contained in it append the term with all occurrences of the key
replaced by each of the key variants. -/
def generateVariations (term : String) : List String :=
  let term := goToLower term
  substitutions.foldl
    (fun acc kv =>
      if likeContains term kv.1 then acc ++ kv.2.map (fun sub => goReplaceAll term kv.1 sub)
      else acc)
    []

/-- BookRepository.generateFuzzyPatterns: the full term, then every
whitespace-delimited word longer than two characters, then the
variations, each wrapped as a %...% LIKE pattern. -/
def generateFuzzyPatterns (term : String) : List String :=
  let patterns := ["%" ++ term ++ "%"]
  let patterns := patterns ++
    ((goFields term).filter (fun w => w.length > 2)).map (fun w => "%" ++ w ++ "%")
  patterns ++ (generateVariations term).map (fun v => "%" ++ v ++ "%")

/-- Meaning of one of the %x% LIKE patterns built by
generateFuzzyPatterns: strip the single wrapping percent pair and test
containment. -/
def likeMatchWrapped (s pat : String) : Bool :=
  likeContains s ⟨(pat.data.drop 1).dropLast⟩

/-- The search-type switch of BookRepository.AdvancedSearch (the Go
default case is contains). -/
def searchCondition (searchType queryTerm : String) (b : Book) : Bool :=
  if searchType == "exact" then
    b.title == queryTerm || b.author == queryTerm
  else if searchType == "starts_with" then
    likeStartsWith b.title queryTerm || likeStartsWith b.author queryTerm
  else if searchType == "fuzzy" then
    (generateFuzzyPatterns queryTerm).any fun pat =>
      likeMatchWrapped b.title pat || likeMatchWrapped b.author pat
  else
    likeContains b.title queryTerm || likeContains b.author queryTerm ||
    likeContains b.category queryTerm

/-- Order("column " + sortOrder): descending when sortOrder is DESC,
otherwise ascending (the service only passes ASC or DESC). -/
def dirLe (sortOrder : String) (le : Book → Book → Bool) (a b : Book) : Bool :=
  if sortOrder == "DESC" then le b a else le a b

/-- The Where-building section of BookRepository.AdvancedSearch: the
soft-delete scope, then the search condition when the query is non-empty,
then the category equality filter, then the author containment filter. -/
def advancedFilteredRows (p : AdvancedSearchParams) (books : List Book) : List Book :=
  let rows := aliveBooks books
  let rows := if p.query != "" then rows.filter (searchCondition p.searchType (goTrimSpace p.query)) else rows
  let rows := if p.category != "" then rows.filter (fun b => b.category == goTrimSpace p.category) else rows
  if p.author != "" then rows.filter (fun b => likeContains b.author (goTrimSpace p.author)) else rows

/-- BookRepository.AdvancedSearch.  The Where clauses (search condition,
category equality, author containment) and the final Limit and Offset are
accumulated on the GORM chain; in the relevance branch with a non-empty
query the function calls Raw, which replaces the whole statement, so that
branch returns every non-deleted row ordered by relevance and ignores the
accumulated filters and the pagination. -/
def advancedSearchRepo (p : AdvancedSearchParams) (books : List Book) : List Book :=
  let rows := advancedFilteredRows p books
  if p.sortBy == "title" then
    paginate p.limit p.offset (sqlOrderBy (dirLe p.sortOrder (fun a b => strLe a.title b.title)) rows)
  else if p.sortBy == "author" then
    paginate p.limit p.offset (sqlOrderBy (dirLe p.sortOrder (fun a b => strLe a.author b.author)) rows)
  else if p.sortBy == "category" then
    paginate p.limit p.offset (sqlOrderBy (dirLe p.sortOrder (fun a b => strLe a.category b.category)) rows)
  else if p.sortBy == "created_at" then
    paginate p.limit p.offset (sqlOrderBy (dirLe p.sortOrder (fun a b => decide (a.createdAt ≤ b.createdAt))) rows)
  else if p.sortBy == "relevance" then
    if p.query != "" then
      sqlOrderBy (relevanceLe (goTrimSpace p.query)) (aliveBooks books)
    else
      paginate p.limit p.offset (sqlOrderBy (fun a b => strLe a.title b.title) rows)
  else
    paginate p.limit p.offset (sqlOrderBy (fun a b => strLe a.title b.title) rows)

/-- SELECT DISTINCT ... UNION SELECT DISTINCT ...: deduplicate keeping
first occurrences. -/
def dedupAux (seen : List String) : List String → List String
  | [] => []
  | s :: rest =>
    if seen.contains s then dedupAux seen rest else s :: dedupAux (s :: seen) rest

/-- BookRepository.GetSearchSuggestions: titles and authors of non-deleted
rows whose title or author contains the trimmed query, deduplicated,
capped at limit. -/
def getSearchSuggestions (query : String) (limit : Int) (books : List Book) : List String :=
  if query == "" then []
  else
    let q := goTrimSpace query
    let matching := (aliveBooks books).filter (fun b => likeContains b.title q || likeContains b.author q)
    (dedupAux [] (matching.map Book.title ++ matching.map Book.author)).take limit.toNat

/-- BookRepository.FindByID: First over non-deleted rows with the id. -/
def bookFindByID (id : Nat) (books : List Book) : Option Book :=
  sqlFirstBook (fun b => b.alive && b.id == id) books

/-- BookRepository.Exists: a count over id = ? AND deleted_at IS NULL. -/
def bookExists (id : Nat) (books : List Book) : Bool :=
  (aliveBooks books).any (fun b => b.id == id)

/-- BookRepository.FindByTitle: First over title = ? AND deleted_at IS
NULL, used for duplicate checking. -/
def findByTitle (title : String) (books : List Book) : Option Book :=
  sqlFirstBook (fun b => b.alive && b.title == title) books

/-- BookRepository.Create: the insert assigns the next auto-increment id
and stamps the row. -/
def bookCreate (book : Book) (s : DB) : DB :=
  { s with
    books := s.books ++
      [{ book with id := s.nextBookID, createdAt := s.now, updatedAt := s.now, deletedAt := none }],
    nextBookID := s.nextBookID + 1 }

/-- BookRepository.Update: Updates on id = ? AND deleted_at IS NULL
replaces the three text columns of the matching live row. -/
def bookUpdate (book : Book) (now : Nat) (books : List Book) : List Book :=
  books.map fun b =>
    if b.id == book.id && b.alive then
      { b with title := book.title, author := book.author, category := book.category, updatedAt := now }
    else b

/-! ## FavoriteRepository (internal/infra/repository/favorite_repository.go) -/

/-- FavoriteRepository.Exists: count over user_id = ? AND book_id = ?
(under the soft-delete scope). -/
def favoriteExists (userID bookID : Nat) (favs : List Favorite) : Bool :=
  (aliveFavorites favs).any (fun f => f.userID == userID && f.bookID == bookID)

/-- FavoriteRepository.Delete: GORM soft-deletes the live rows matching
id = ? AND user_id = ?.  The returned error is nil whether or not any row
matched, which is why this is a total function on the state. -/
def favoriteDelete (userID favoriteID : Nat) (now : Nat) (favs : List Favorite) : List Favorite :=
  favs.map fun f =>
    if f.id == favoriteID && f.userID == userID && f.alive then
      { f with deletedAt := some now }
    else f

/-! ## BookService (service layer) -/

/-- BookService.validateBook: the first failing rule produces the error
message. -/
def validateBook (b : Book) : Option String :=
  if goTrimSpace b.title == "" then some "title is required"
  else if b.title.length > 255 then some "title must be less than 255 characters"
  else if goTrimSpace b.author == "" then some "author is required"
  else if b.author.length > 255 then some "author must be less than 255 characters"
  else if goTrimSpace b.category == "" then some "category is required"
  else if b.category.length > 255 then some "category must be less than 255 characters"
  else none

/-- BookService.GetBooks: trim both arguments and delegate to FindAll. -/
def getBooks (search category : String) (books : List Book) : List Book :=
  bookFindAll (goTrimSpace search) (goTrimSpace category) books

/-- The defaults section at the top of BookService.AdvancedSearch:
searchType defaults to contains, sortBy to relevance, sortOrder to ASC, a
limit outside 1..100 to 20, a negative offset to 0. -/
def applyDefaults (p : AdvancedSearchParams) : AdvancedSearchParams :=
  let p := if p.searchType == "" then { p with searchType := "contains" } else p
  let p := if p.sortBy == "" then { p with sortBy := "relevance" } else p
  let p := if p.sortOrder == "" then { p with sortOrder := "ASC" } else p
  let p := if p.limit ≤ 0 || p.limit > 100 then { p with limit := 20 } else p
  if p.offset < 0 then { p with offset := 0 } else p

/-- BookService.AdvancedSearch: fill defaults, validate the enums, then
delegate to the repository. -/
def serviceAdvancedSearch (p : AdvancedSearchParams) (books : List Book) : Except String (List Book) :=
  let p := applyDefaults p
  if !(p.searchType == "exact" || p.searchType == "starts_with" ||
       p.searchType == "contains" || p.searchType == "fuzzy") then
    .error "invalid search type. Must be: exact, starts_with, contains, or fuzzy"
  else if !(p.sortBy == "title" || p.sortBy == "author" || p.sortBy == "category" ||
            p.sortBy == "created_at" || p.sortBy == "relevance") then
    .error "invalid sort field. Must be: title, author, category, created_at, or relevance"
  else if !(p.sortOrder == "ASC" || p.sortOrder == "DESC") then
    .error "invalid sort order. Must be: ASC or DESC"
  else
    .ok (advancedSearchRepo p books)

/-- BookService.GetSearchSuggestions: clamp the limit into 1..20 (default
10) and delegate. -/
def serviceGetSearchSuggestions (query : String) (limit : Int) (books : List Book) : List String :=
  let limit := if limit ≤ 0 || limit > 20 then 10 else limit
  getSearchSuggestions query limit books

/-- BookService.CreateBook: validate, reject a duplicate title among
non-deleted rows, then insert.  The state component of the result is
unchanged on every error path because the Go function returns before the
repository write. -/
def createBook (book : Book) (s : DB) : Except String Unit × DB :=
  match validateBook book with
  | some msg => (.error msg, s)
  | none =>
    match findByTitle book.title s.books with
    | some _ => (.error "book with this title already exists", s)
    | none => (.ok (), bookCreate book s)

/-- BookService.UpdateBook: validate, require the target id to exist
non-deleted, reject a duplicate title belonging to a different id, then
update in place. -/
def updateBook (book : Book) (s : DB) : Except String Unit × DB :=
  match validateBook book with
  | some msg => (.error msg, s)
  | none =>
    if !(bookExists book.id s.books) then (.error "book not found", s)
    else
      match findByTitle book.title s.books with
      | some existing =>
        if existing.id != book.id then (.error "book with this title already exists", s)
        else (.ok (), { s with books := bookUpdate book s.now s.books })
      | none => (.ok (), { s with books := bookUpdate book s.now s.books })

/-! ## FavoriteService (the variant with existence and duplicate checks) -/

/-- The joined book snapshot placed in a FavoriteResponse. -/
def toBookResponse (b : Book) : BookResponse :=
  ⟨b.id, b.title, b.author, b.category, b.createdAt, b.updatedAt⟩

/-- FavoriteService.AddFavorite: fail when the book id has no non-deleted
row, fail when the (user, book) pair is already favorited, otherwise
insert and return the favorite joined with the book looked up again after
the insert. -/
def addFavorite (userID bookID : Nat) (s : DB) : Except String FavoriteResponse × DB :=
  match bookFindByID bookID s.books with
  | none => (.error "book not found", s)
  | some _ =>
    if favoriteExists userID bookID s.favorites then
      (.error "already in favorites", s)
    else
      let fav : Favorite := ⟨s.nextFavoriteID, userID, bookID, s.now, none⟩
      let s2 : DB := { s with favorites := s.favorites ++ [fav], nextFavoriteID := s.nextFavoriteID + 1 }
      match bookFindByID bookID s2.books with
      | none => (.error "record not found", s2)
      | some book => (.ok ⟨fav.id, userID, bookID, fav.createdAt, toBookResponse book⟩, s2)

/-- FavoriteService.RemoveFavorite: delegate to the repository delete,
whose error is nil regardless of how many rows matched. -/
def removeFavorite (userID favoriteID : Nat) (s : DB) : Except String Unit × DB :=
  (.ok (), { s with favorites := favoriteDelete userID favoriteID s.now s.favorites })

/-! ## Handler-level validation (internal/infra/handler) -/

/-- BookHandler.validateBookRequest. -/
def validateBookRequest (req : BookRequest) : Option ValidationError :=
  if goTrimSpace req.title == "" then some ⟨"title", "Title is required"⟩
  else if req.title.length > 255 then some ⟨"title", "Title must be less than 255 characters"⟩
  else if goTrimSpace req.author == "" then some ⟨"author", "Author is required"⟩
  else if req.author.length > 255 then some ⟨"author", "Author must be less than 255 characters"⟩
  else if goTrimSpace req.category == "" then some ⟨"category", "Category is required"⟩
  else if req.category.length > 255 then some ⟨"category", "Category must be less than 255 characters"⟩
  else none

/-- FavoriteHandler.validateFavoriteRequest. -/
def validateFavoriteRequest (req : FavoriteRequest) : Option ValidationError :=
  if req.bookID == 0 then some ⟨"book_id", "Book ID is required"⟩ else none

/-! ## Order and query helper lemmas -/

theorem charListLe_total : ∀ as bs : List Char, charListLe as bs = true ∨ charListLe bs as = true := by
  intro as
  induction as with
  | nil => intro bs; left; rfl
  | cons a as ih =>
    intro bs
    cases bs with
    | nil => right; rfl
    | cons b bs =>
      by_cases hab : a.toNat < b.toNat
      · left; simp [charListLe, hab]
      · by_cases hba : b.toNat < a.toNat
        · right; simp [charListLe, hba]
        · rcases ih bs with h | h
          · left; simp [charListLe, hab, hba, h]
          · right; simp [charListLe, hab, hba, h]

theorem charListLe_trans :
    ∀ as bs cs : List Char, charListLe as bs = true → charListLe bs cs = true →
      charListLe as cs = true := by
  intro as
  induction as with
  | nil => intro bs cs _ _; rfl
  | cons a as ih =>
    intro bs cs h1 h2
    cases bs with
    | nil => simp [charListLe] at h1
    | cons b bs =>
      cases cs with
      | nil => simp [charListLe] at h2
      | cons c cs =>
        simp only [charListLe] at h1 h2 ⊢
        by_cases hab : a.toNat < b.toNat
        · by_cases hbc : b.toNat < c.toNat
          · simp [Nat.lt_trans hab hbc]
          · by_cases hcb : c.toNat < b.toNat
            · simp [hbc, hcb] at h2
            · have hbc2 : b.toNat = c.toNat := Nat.le_antisymm (Nat.le_of_not_lt hcb) (Nat.le_of_not_lt hbc)
              simp [hbc2 ▸ hab]
        · by_cases hba : b.toNat < a.toNat
          · simp [hab, hba] at h1
          · have hab2 : a.toNat = b.toNat := Nat.le_antisymm (Nat.le_of_not_lt hba) (Nat.le_of_not_lt hab)
            by_cases hbc : b.toNat < c.toNat
            · simp [hab2 ▸ hbc]
            · by_cases hcb : c.toNat < b.toNat
              · simp [hbc, hcb] at h2
              · simp only [hab, hba, if_false] at h1
                simp only [hbc, hcb, if_false] at h2
                have hac : ¬ a.toNat < c.toNat := by omega
                have hca : ¬ c.toNat < a.toNat := by omega
                simp [hac, hca, ih bs cs h1 h2]

theorem strLe_total (a b : String) : strLe a b = true ∨ strLe b a = true :=
  charListLe_total a.data b.data

theorem strLe_trans {a b c : String} (h1 : strLe a b = true) (h2 : strLe b c = true) :
    strLe a c = true :=
  charListLe_trans a.data b.data c.data h1 h2

theorem relevanceLe_total (t : String) (a b : Book) :
    relevanceLe t a b = true ∨ relevanceLe t b a = true := by
  simp only [relevanceLe, Bool.or_eq_true, Bool.and_eq_true, decide_eq_true_eq, beq_iff_eq]
  rcases Nat.lt_trichotomy (relevanceRank t a) (relevanceRank t b) with h | h | h
  · left; left; exact h
  · rcases strLe_total a.title b.title with hs | hs
    · left; right; exact ⟨h, hs⟩
    · right; right; exact ⟨h.symm, hs⟩
  · right; left; exact h

theorem relevanceLe_trans (t : String) (a b c : Book)
    (h1 : relevanceLe t a b = true) (h2 : relevanceLe t b c = true) :
    relevanceLe t a c = true := by
  simp only [relevanceLe, Bool.or_eq_true, Bool.and_eq_true, decide_eq_true_eq, beq_iff_eq] at h1 h2 ⊢
  rcases h1 with h1 | ⟨h1e, h1s⟩
  · rcases h2 with h2 | ⟨h2e, h2s⟩
    · left; exact Nat.lt_trans h1 h2
    · left; exact h2e ▸ h1
  · rcases h2 with h2 | ⟨h2e, h2s⟩
    · left; exact h1e ▸ h2
    · right; exact ⟨h1e.trans h2e, strLe_trans h1s h2s⟩

theorem sqlOrderBy_perm (le : Book → Book → Bool) (rows : List Book) :
    (sqlOrderBy le rows).Perm rows :=
  List.perm_insertionSort _ rows

theorem mem_sqlOrderBy {le : Book → Book → Bool} {rows : List Book} {b : Book} :
    b ∈ sqlOrderBy le rows ↔ b ∈ rows :=
  (sqlOrderBy_perm le rows).mem_iff

theorem sqlOrderBy_pairwise (le : Book → Book → Bool)
    (htot : ∀ a b, le a b = true ∨ le b a = true)
    (htrans : ∀ a b c, le a b = true → le b c = true → le a c = true)
    (rows : List Book) :
    List.Pairwise (fun a b => le a b = true) (sqlOrderBy le rows) :=
  @List.sorted_insertionSort Book (fun a b => le a b = true) (fun _ _ => instDecidableEqBool _ _)
    ⟨htot⟩ ⟨fun _ _ _ => htrans _ _ _⟩ rows

theorem aliveBooks_idem (books : List Book) : aliveBooks (aliveBooks books) = aliveBooks books := by
  simp [aliveBooks, List.filter_filter]

theorem mem_aliveBooks {books : List Book} {b : Book} :
    b ∈ aliveBooks books ↔ b ∈ books ∧ b.alive = true :=
  List.mem_filter

theorem sqlFirstBook_eq_none_iff {cond : Book → Bool} {books : List Book} :
    sqlFirstBook cond books = none ↔ ∀ b ∈ books, cond b = false := by
  constructor
  · intro h b hb
    rw [Bool.eq_false_iff]
    intro hct
    have hnil : sqlOrderBy (fun a b => decide (a.id ≤ b.id)) (books.filter cond) = [] :=
      List.head?_eq_none_iff.mp (by simpa [sqlFirstBook] using h)
    have hm : b ∈ sqlOrderBy (fun a b => decide (a.id ≤ b.id)) (books.filter cond) :=
      mem_sqlOrderBy.mpr (List.mem_filter.mpr ⟨hb, hct⟩)
    rw [hnil] at hm
    exact absurd hm (List.not_mem_nil b)
  · intro h
    have hfil : books.filter cond = [] := by
      apply List.filter_eq_nil_iff.mpr
      intro b hb
      simp [h b hb]
    simp [sqlFirstBook, hfil, sqlOrderBy]

theorem sqlFirstBook_some_mem {cond : Book → Bool} {books : List Book} {bk : Book}
    (h : sqlFirstBook cond books = some bk) : bk ∈ books ∧ cond bk = true := by
  have hm : bk ∈ sqlOrderBy (fun a b => decide (a.id ≤ b.id)) (books.filter cond) :=
    List.mem_of_mem_head? (by simpa [sqlFirstBook] using h)
  exact List.mem_filter.mp (mem_sqlOrderBy.mp hm)

theorem sqlFirstBook_eq_of_unique {cond : Book → Bool} {books : List Book} {bk : Book}
    (hmem : bk ∈ books) (hcond : cond bk = true)
    (huniq : ∀ b ∈ books, cond b = true → b = bk) :
    sqlFirstBook cond books = some bk := by
  have hall : ∀ b ∈ sqlOrderBy (fun a b => decide (a.id ≤ b.id)) (books.filter cond), b = bk := by
    intro b hb
    have := List.mem_filter.mp (mem_sqlOrderBy.mp hb)
    exact huniq b this.1 this.2
  have hne : sqlOrderBy (fun a b => decide (a.id ≤ b.id)) (books.filter cond) ≠ [] := by
    intro hnil
    have : bk ∈ sqlOrderBy (fun a b => decide (a.id ≤ b.id)) (books.filter cond) :=
      mem_sqlOrderBy.mpr (List.mem_filter.mpr ⟨hmem, hcond⟩)
    rw [hnil] at this
    exact absurd this (List.not_mem_nil bk)
  rcases hl : sqlOrderBy (fun a b => decide (a.id ≤ b.id)) (books.filter cond) with _ | ⟨x, xs⟩
  · exact absurd hl hne
  · have hx : x = bk := hall x (by rw [hl]; exact List.mem_cons_self x xs)
    simp [sqlFirstBook, hl, hx]

theorem mem_paginate {limit offset : Int} {rows : List Book} {b : Book}
    (h : b ∈ paginate limit offset rows) : b ∈ rows := by
  unfold paginate at h
  split_ifs at h with h1 h2 h3
  · exact List.mem_of_mem_drop (List.mem_of_mem_take h)
  · exact List.mem_of_mem_drop h
  · exact List.mem_of_mem_take h
  · exact h

theorem paginate_sublist (limit offset : Int) (rows : List Book) :
    (paginate limit offset rows).Sublist rows := by
  unfold paginate
  split_ifs with h1 h2 h3
  · exact ((rows.drop offset.toNat).take_sublist limit.toNat).trans (rows.drop_sublist offset.toNat)
  · exact rows.drop_sublist offset.toNat
  · exact rows.take_sublist limit.toNat
  · exact List.Sublist.refl rows

theorem mem_ite_filter {c : Bool} {p : Book → Bool} {l : List Book} {b : Book}
    (h : b ∈ if c then l.filter p else l) : b ∈ l := by
  split_ifs at h
  · exact (List.mem_filter.mp h).1
  · exact h

theorem advancedFilteredRows_subset {p : AdvancedSearchParams} {books : List Book} {b : Book}
    (h : b ∈ advancedFilteredRows p books) : b ∈ aliveBooks books := by
  simp only [advancedFilteredRows] at h
  exact mem_ite_filter (mem_ite_filter (mem_ite_filter h))

/-- Every branch of AdvancedSearch either paginates a sort of the filtered
rows, or (the raw relevance branch) sorts all live rows by relevance. -/
theorem advancedSearchRepo_cases (p : AdvancedSearchParams) (books : List Book) :
    (∃ le, advancedSearchRepo p books =
        paginate p.limit p.offset (sqlOrderBy le (advancedFilteredRows p books))) ∨
    (p.sortBy = "relevance" ∧ p.query ≠ "" ∧
      advancedSearchRepo p books = sqlOrderBy (relevanceLe (goTrimSpace p.query)) (aliveBooks books)) := by
  simp only [advancedSearchRepo]
  split_ifs with h1 h2 h3 h4 h5 h6
  · exact Or.inl ⟨_, rfl⟩
  · exact Or.inl ⟨_, rfl⟩
  · exact Or.inl ⟨_, rfl⟩
  · exact Or.inl ⟨_, rfl⟩
  · refine Or.inr ⟨by simpa using h5, by simpa using h6, rfl⟩
  · exact Or.inl ⟨_, rfl⟩
  · exact Or.inl ⟨_, rfl⟩

theorem advancedSearchRepo_subset {p : AdvancedSearchParams} {books : List Book} {b : Book}
    (h : b ∈ advancedSearchRepo p books) : b ∈ aliveBooks books := by
  rcases advancedSearchRepo_cases p books with ⟨le, hc⟩ | ⟨_, _, hc⟩
  · rw [hc] at h
    exact advancedFilteredRows_subset (mem_sqlOrderBy.mp (mem_paginate h))
  · rw [hc] at h
    exact mem_sqlOrderBy.mp h

/-- Claim C9: a soft-deleted book is invisible to every read operation:
listBooks, advancedSearch, getSuggestions, getBookByID, the
title-uniqueness lookup and the existence check each compute the same
result on the full table as on the table restricted to its non-deleted
rows, and the two searches never return a row that is not alive. -/
theorem soft_deleted_invisible (search category query title : String)
    (p : AdvancedSearchParams) (limit : Int) (id : Nat) (books : List Book) :
    bookFindAll search category books = bookFindAll search category (aliveBooks books) ∧
    advancedSearchRepo p books = advancedSearchRepo p (aliveBooks books) ∧
    getSearchSuggestions query limit books = getSearchSuggestions query limit (aliveBooks books) ∧
    bookFindByID id books = bookFindByID id (aliveBooks books) ∧
    findByTitle title books = findByTitle title (aliveBooks books) ∧
    bookExists id books = bookExists id (aliveBooks books) ∧
    (∀ b : Book, b ∈ bookFindAll search category books → b.alive = true) ∧
    (∀ b : Book, b ∈ advancedSearchRepo p books → b.alive = true) := by
  have hfil : ∀ (cond : Book → Bool) (l : List Book),
      (aliveBooks l).filter cond = (aliveBooks (aliveBooks l)).filter cond := by
    intro cond l; rw [aliveBooks_idem]
  have hscope : ∀ (cond : Book → Bool) (l : List Book),
      sqlFirstBook (fun b => b.alive && cond b) (aliveBooks l) =
        sqlFirstBook (fun b => b.alive && cond b) l := by
    intro cond l
    unfold sqlFirstBook aliveBooks
    rw [List.filter_filter]
    congr 2
    apply List.filter_congr
    intro b _
    cases hb : b.alive <;> simp [hb]
  refine ⟨?_, ?_, ?_, ?_, ?_, ?_, ?_, ?_⟩
  · simp only [bookFindAll, aliveBooks_idem]
  · simp only [advancedSearchRepo, advancedFilteredRows, aliveBooks_idem]
  · simp only [getSearchSuggestions, aliveBooks_idem]
  · exact (hscope (fun b => b.id == id) books).symm
  · exact (hscope (fun b => b.title == title) books).symm
  · simp only [bookExists, aliveBooks_idem]
  · intro b hb
    simp only [bookFindAll] at hb
    split_ifs at hb
    · exact (mem_aliveBooks.mp (List.mem_filter.mp (mem_sqlOrderBy.mp hb)).1).2
    · exact (mem_aliveBooks.mp (List.mem_filter.mp hb).1).2
    · exact (mem_aliveBooks.mp hb).2
  · intro b hb
    exact (mem_aliveBooks.mp (advancedSearchRepo_subset hb)).2

/-- Claim C9 witness: on a table holding one live and one soft-deleted
row, the read operations agree with their restriction to the live row,
and the deleted row is not returned. -/
theorem soft_deleted_invisible_witness :
    (∀ b : Book,
        b ∈ bookFindAll "x" "" [⟨1, "x", "a", "c", 0, 0, none⟩, ⟨2, "x", "a", "c", 0, 0, some 5⟩] →
        b.alive = true) ∧
    bookExists 2 [⟨1, "x", "a", "c", 0, 0, none⟩, ⟨2, "x", "a", "c", 0, 0, some 5⟩] =
      bookExists 2 (aliveBooks [⟨1, "x", "a", "c", 0, 0, none⟩, ⟨2, "x", "a", "c", 0, 0, some 5⟩]) := by
  have h := soft_deleted_invisible "x" "" "q" "t" ⟨"", "", "", "", "", "", 0, 0⟩ 1 2
    [⟨1, "x", "a", "c", 0, 0, none⟩, ⟨2, "x", "a", "c", 0, 0, some 5⟩]
  exact ⟨h.2.2.2.2.2.2.1, h.2.2.2.2.2.1⟩

/-- Claim C8: handler validation of a book payload fails exactly when one
of title, author, category is empty after trimming or longer than 255
characters, the reported field is an offending one; favorite validation
fails exactly when the book identifier is zero.  Both validators are pure
Lean functions of their input, so they have no side effects by
construction. -/
theorem validateRequests_spec (req : BookRequest) (fr : FavoriteRequest) :
    (validateBookRequest req = none ↔
      ¬(goTrimSpace req.title = "" ∨ req.title.length > 255 ∨
        goTrimSpace req.author = "" ∨ req.author.length > 255 ∨
        goTrimSpace req.category = "" ∨ req.category.length > 255)) ∧
    (∀ e, validateBookRequest req = some e →
      e.message ≠ "" ∧
      ((e.field = "title" ∧ (goTrimSpace req.title = "" ∨ req.title.length > 255)) ∨
       (e.field = "author" ∧ (goTrimSpace req.author = "" ∨ req.author.length > 255)) ∨
       (e.field = "category" ∧ (goTrimSpace req.category = "" ∨ req.category.length > 255)))) ∧
    (validateFavoriteRequest fr = none ↔ fr.bookID ≠ 0) ∧
    (∀ e, validateFavoriteRequest fr = some e → e.field = "book_id" ∧ fr.bookID = 0) := by
  refine ⟨?_, ?_, ?_, ?_⟩
  · unfold validateBookRequest
    split_ifs with h1 h2 h3 h4 h5 h6 <;>
      simp_all [beq_iff_eq, Nat.lt_iff_add_one_le]
  · intro e he
    unfold validateBookRequest at he
    split_ifs at he with h1 h2 h3 h4 h5 h6 <;> cases he <;>
      simp_all [beq_iff_eq]
  · unfold validateFavoriteRequest
    split_ifs with h1 <;> simp_all [beq_iff_eq]
  · intro e he
    unfold validateFavoriteRequest at he
    split_ifs at he with h1 <;> cases he <;> simp_all [beq_iff_eq]

/-- Claim C8 witness: a blank title is rejected with the title field, a
valid payload passes, and a zero book identifier is rejected. -/
theorem validateRequests_spec_witness :
    ((⟨"title", "Title is required"⟩ : ValidationError).field = "title" ∧
      (goTrimSpace "  " = "" ∨ ("  " : String).length > 255)) ∧
    validateFavoriteRequest ⟨0⟩ = some ⟨"book_id", "Book ID is required"⟩ ∧
    (validateFavoriteRequest ⟨3⟩ = none ↔ (3 : Nat) ≠ 0) := by
  have h := validateRequests_spec ⟨"  ", "a", "c"⟩ ⟨0⟩
  have h2 := validateRequests_spec ⟨"t", "a", "c"⟩ ⟨3⟩
  refine ⟨((h.2.1 ⟨"title", "Title is required"⟩ (by rfl)).2).resolve_right ?_, by rfl, h2.2.2.1⟩
  intro hc
  rcases hc with ⟨hf, _⟩ | ⟨hf, _⟩ <;> simp at hf

/-- Claim C3 counterexample: the state holds no favorite rows at all, so
no row with identifier 7 belonging to user 1 can be deleted, yet
removeFavorite succeeds and leaves the state unchanged instead of failing
with NotFound. -/
theorem removeFavorite_missing_row_ok :
    (removeFavorite 1 7 ⟨[], [], 1, 1, 0⟩).1 = .ok () ∧
    (removeFavorite 1 7 ⟨[], [], 1, 1, 0⟩).2 = ⟨[], [], 1, 1, 0⟩ :=
  ⟨rfl, rfl⟩

/-- Claim C3 amended: removeFavorite always succeeds.  When no live
favorite row with the given identifier belongs to the user it deletes
nothing and leaves the state unchanged — the repository never inspects
the affected-row count, so no NotFound error is produced — and when such
a row exists it is soft-deleted. -/
theorem removeFavorite_spec (u fid : Nat) (s : DB) :
    (removeFavorite u fid s).1 = .ok () ∧
    (removeFavorite u fid s).2.books = s.books ∧
    ((¬ ∃ f ∈ s.favorites, f.alive = true ∧ f.id = fid ∧ f.userID = u) →
      (removeFavorite u fid s).2 = s) ∧
    (∀ f ∈ s.favorites, f.alive = true → f.id = fid → f.userID = u →
      { f with deletedAt := some s.now } ∈ (removeFavorite u fid s).2.favorites) := by
  refine ⟨rfl, rfl, ?_, ?_⟩
  · intro hno
    have hdel : favoriteDelete u fid s.now s.favorites = s.favorites := by
      unfold favoriteDelete
      have hcong : ∀ f ∈ s.favorites,
          (if f.id == fid && f.userID == u && f.alive then { f with deletedAt := some s.now } else f) = f := by
        intro f hf
        have hc : (f.id == fid && f.userID == u && f.alive) = false := by
          rw [Bool.eq_false_iff]
          intro hb
          simp only [Bool.and_eq_true, beq_iff_eq] at hb
          exact hno ⟨f, hf, hb.2, hb.1.1, hb.1.2⟩
        simp [hc]
      exact (List.map_congr_left hcong).trans (List.map_id s.favorites)
    simp [removeFavorite, hdel]
  · intro f hf hal hid huid
    refine List.mem_map.mpr ⟨f, hf, ?_⟩
    simp [hid, huid, hal]

/-- Claim C3 amended witness: removing an absent favorite from a state
holding an unrelated favorite row changes nothing. -/
theorem removeFavorite_spec_witness :
    (removeFavorite 2 9 ⟨[], [⟨1, 2, 3, 0, none⟩], 1, 2, 5⟩).2 = ⟨[], [⟨1, 2, 3, 0, none⟩], 1, 2, 5⟩ := by
  exact (removeFavorite_spec 2 9 ⟨[], [⟨1, 2, 3, 0, none⟩], 1, 2, 5⟩).2.2.1 (by simp)

/-- The substitution table exactly as claim C7 states it: the claim lists
only "rings" for the key "ring" and omits the identity variant "ring"
kept in the source, and it does not lowercase the term. -/
def claimedSubstitutions : List (String × List String) :=
  [("har", ["harr", "harry"]),
   ("pot", ["pott", "potter"]),
   ("lord", ["lords"]),
   ("ring", ["rings"]),
   ("game", ["gaming"]),
   ("throne", ["thrones"])]

/-- The fuzzy pattern list exactly as claim C7 states it, built from the
words of the claim for comparison with the code: full term, words longer
than two characters, then for each claimed table key contained in the raw
term the term with every occurrence of the key replaced by each variant. -/
def specFuzzyPatternsClaimed (term : String) : List String :=
  ["%" ++ term ++ "%"] ++
  ((goFields term).filter (fun w => w.length > 2)).map (fun w => "%" ++ w ++ "%") ++
  (claimedSubstitutions.filter (fun kv => likeContains term kv.1)).flatMap
    (fun kv => kv.2.map (fun sub => "%" ++ goReplaceAll term kv.1 sub ++ "%"))

/-- Claim C7 counterexample: on the term "Ring" the code lowercases before
consulting the table and the table carries the extra identity variant
"ring", so the code emits two substitution patterns where the claim
predicts none. -/
theorem generateFuzzyPatterns_claim_false :
    generateFuzzyPatterns "Ring" = ["%Ring%", "%Ring%", "%rings%", "%ring%"] ∧
    specFuzzyPatternsClaimed "Ring" = ["%Ring%", "%Ring%"] := by
  constructor <;> rfl

theorem foldl_variations_eq_flatMap (t : String) (table : List (String × List String)) :
    ∀ acc : List String,
      table.foldl
        (fun acc kv =>
          if likeContains t kv.1 then acc ++ kv.2.map (fun sub => goReplaceAll t kv.1 sub) else acc)
        acc =
      acc ++ (table.filter (fun kv => likeContains t kv.1)).flatMap
        (fun kv => kv.2.map (fun sub => goReplaceAll t kv.1 sub)) := by
  induction table with
  | nil => intro acc; simp
  | cons kv rest ih =>
    intro acc
    by_cases h : likeContains t kv.1 = true
    · simp [List.foldl_cons, List.filter_cons, h, ih, List.append_assoc]
    · simp only [Bool.not_eq_true] at h
      simp [List.foldl_cons, List.filter_cons, h, ih]

/-- Claim C7 amended: the generator produces, in order, the full term,
every whitespace-delimited word of the term longer than two characters,
and then — for each key of the source table ("har" to harr and harry,
"pot" to pott and potter, "lord" to lords, "ring" to rings and ring
itself, "game" to gaming, "throne" to thrones, keys taken in the order of
the source text, the Go map iteration order being unspecified) that is
contained in the LOWERCASED term — the lowercased term with every
occurrence of the key replaced by each variant; every entry is emitted as
a percent-wrapped LIKE pattern. -/
theorem generateFuzzyPatterns_spec (term : String) :
    generateFuzzyPatterns term =
      ["%" ++ term ++ "%"] ++
      ((goFields term).filter (fun w => w.length > 2)).map (fun w => "%" ++ w ++ "%") ++
      (substitutions.filter (fun kv => likeContains (goToLower term) kv.1)).flatMap
        (fun kv => kv.2.map (fun sub => "%" ++ goReplaceAll (goToLower term) kv.1 sub ++ "%")) := by
  simp only [generateFuzzyPatterns, generateVariations, foldl_variations_eq_flatMap,
    List.nil_append, List.map_append, List.append_assoc, List.map_flatMap, List.map_map]
  rfl

set_option maxHeartbeats 2000000 in
/-- Claim C1 failing-input evidence (code bug): under sortBy relevance
with the exact-match query "Dune", a category filter "Science Fiction",
limit 1 and offset 1, AdvancedSearch returns BOTH live books in relevance
order.  The raw relevance statement replaces the query GORM had built, so
the search-type predicate, the category and author filters and the
limit/offset are all ignored: the second book matches neither the exact
predicate (second conjunct) nor the pagination window, yet it is
returned. -/
theorem advancedSearch_relevance_ignores_filters :
    serviceAdvancedSearch ⟨"Dune", "Science Fiction", "", "exact", "relevance", "ASC", 1, 1⟩
      [⟨1, "Dune", "Frank Herbert", "Science Fiction", 1, 1, none⟩,
       ⟨2, "Emma", "Jane Austen", "Romance", 2, 2, none⟩] =
      .ok [⟨1, "Dune", "Frank Herbert", "Science Fiction", 1, 1, none⟩,
           ⟨2, "Emma", "Jane Austen", "Romance", 2, 2, none⟩] ∧
    searchCondition "exact" "Dune" ⟨2, "Emma", "Jane Austen", "Romance", 2, 2, none⟩ = false := by
  constructor <;> rfl

/-- The listBooks result exactly as claim C2 states it, built from the
words of the claim for comparison with the code: non-deleted books
matching the title-or-author substring (when search is non-empty) AND the
category equality (when category is non-empty). -/
def specListBooks (search category : String) (books : List Book) : List Book :=
  (aliveBooks books).filter fun b =>
    (search == "" || likeContains b.title search || likeContains b.author search) &&
    (category == "" || b.category == category)

/-- Claim C2 counterexample: with search "Fantasy" and category "Satire"
the code returns the book — its CATEGORY contains the search term, a
match the claim does not allow, and the category-equality filter was
dropped when the raw relevance statement replaced the built query — while
the claim predicts the empty result. -/
theorem getBooks_claim_false :
    getBooks "Fantasy" "Satire" [⟨1, "T", "A", "Fantasy", 0, 0, none⟩] =
      [⟨1, "T", "A", "Fantasy", 0, 0, none⟩] ∧
    specListBooks "Fantasy" "Satire" [⟨1, "T", "A", "Fantasy", 0, 0, none⟩] = [] := by
  constructor <;> rfl

/-- Claim C2 amended: for handler-trimmed arguments, listBooks with a
non-empty search returns exactly the non-deleted books whose title equals,
starts with or contains the search term, or whose author or category
contains it — the category argument being ignored — ordered by relevance
rank then title; with an empty search it returns exactly the non-deleted
books with the given category (all non-deleted books when both arguments
are empty). -/
theorem getBooks_spec (search category : String) (books : List Book)
    (hts : goTrimSpace search = search) (htc : goTrimSpace category = category) :
    (search ≠ "" →
      (∀ b : Book, b ∈ getBooks search category books ↔
          b ∈ books ∧ b.alive = true ∧
          (b.title = search ∨ likeStartsWith b.title search = true ∨
           likeContains b.title search = true ∨ likeContains b.author search = true ∨
           likeContains b.category search = true)) ∧
      List.Pairwise (fun a c => relevanceLe search a c = true) (getBooks search category books)) ∧
    (search = "" → category ≠ "" →
      (∀ b : Book, b ∈ getBooks search category books ↔
        b ∈ books ∧ b.alive = true ∧ b.category = category)) ∧
    (search = "" → category = "" →
      (∀ b : Book, b ∈ getBooks search category books ↔ b ∈ books ∧ b.alive = true)) := by
  have hg : getBooks search category books = bookFindAll search category books := by
    simp [getBooks, hts, htc]
  refine ⟨?_, ?_, ?_⟩
  · intro hs
    have hb : bookFindAll search category books =
        sqlOrderBy (relevanceLe search) ((aliveBooks books).filter (findAllCondition search)) := by
      simp [bookFindAll, bne_iff_ne, hs, hts]
    constructor
    · intro b
      rw [hg, hb, mem_sqlOrderBy, List.mem_filter, mem_aliveBooks]
      simp [findAllCondition, and_assoc, or_assoc]
    · rw [hg, hb]
      exact sqlOrderBy_pairwise _ (relevanceLe_total search) (relevanceLe_trans search) _
  · intro hs hc
    intro b
    rw [hg]
    have hb : bookFindAll search category books =
        (aliveBooks books).filter (fun b => b.category == category) := by
      simp [bookFindAll, hs, bne_iff_ne, hc, htc]
    rw [hb, List.mem_filter, mem_aliveBooks]
    simp [and_assoc]
  · intro hs hc
    intro b
    rw [hg]
    have hb : bookFindAll search category books = aliveBooks books := by
      simp [bookFindAll, hs, hc]
    rw [hb, mem_aliveBooks]

/-- Claim C2 amended witness: with the trimmed search "a" the book whose
title starts with "a" is returned. -/
theorem getBooks_spec_witness :
    (⟨1, "ab", "x", "y", 0, 0, none⟩ : Book) ∈ getBooks "a" "" [⟨1, "ab", "x", "y", 0, 0, none⟩] := by
  have h := getBooks_spec "a" "" [⟨1, "ab", "x", "y", 0, 0, none⟩] (by rfl) (by rfl)
  exact ((h.1 (by decide)).1 _).mpr
    ⟨List.mem_cons_self _ _, rfl, Or.inr (Or.inl (by rfl))⟩

theorem bookExists_iff {id : Nat} {books : List Book} :
    bookExists id books = true ↔ ∃ b ∈ books, b.alive = true ∧ b.id = id := by
  simp [bookExists, aliveBooks, List.any_eq_true, List.mem_filter, and_assoc]

theorem favoriteExists_iff {u bid : Nat} {favs : List Favorite} :
    favoriteExists u bid favs = true ↔
      ∃ f ∈ favs, f.alive = true ∧ f.userID = u ∧ f.bookID = bid := by
  simp [favoriteExists, aliveFavorites, List.any_eq_true, List.mem_filter, and_assoc]

theorem sqlFirstBook_isSome_of_exists {cond : Book → Bool} {books : List Book}
    (h : ∃ b ∈ books, cond b = true) :
    ∃ bk, sqlFirstBook cond books = some bk ∧ bk ∈ books ∧ cond bk = true := by
  rcases h with ⟨b, hb, hc⟩
  rcases hl : sqlOrderBy (fun a b => decide (a.id ≤ b.id)) (books.filter cond) with _ | ⟨x, xs⟩
  · exfalso
    have hm : b ∈ sqlOrderBy (fun a b => decide (a.id ≤ b.id)) (books.filter cond) :=
      mem_sqlOrderBy.mpr (List.mem_filter.mpr ⟨hb, hc⟩)
    rw [hl] at hm
    exact absurd hm (List.not_mem_nil b)
  · have hx : x ∈ sqlOrderBy (fun a b => decide (a.id ≤ b.id)) (books.filter cond) := by
      rw [hl]; exact List.mem_cons_self x xs
    have hx2 := List.mem_filter.mp (mem_sqlOrderBy.mp hx)
    exact ⟨x, by simp [sqlFirstBook, hl], hx2.1, hx2.2⟩

theorem bookFindByID_eq_none_iff {id : Nat} {books : List Book} :
    bookFindByID id books = none ↔ ¬ ∃ b ∈ books, b.alive = true ∧ b.id = id := by
  rw [bookFindByID, sqlFirstBook_eq_none_iff]
  constructor
  · rintro h ⟨b, hb, hal, hid⟩
    have := h b hb
    simp [hal, hid] at this
  · intro h b hb
    rw [Bool.eq_false_iff]
    intro hc
    simp only [Bool.and_eq_true, beq_iff_eq] at hc
    exact h ⟨b, hb, hc.1, hc.2⟩

/-- Claim C4: addFavorite fails with NotFound when the book id has no
non-deleted row, fails with AlreadyFavorited when the (user, book) pair is
already a live favorite, and otherwise creates the favorite and returns it
joined with the current fields of the referenced book; on both failure
paths the state — in particular the favorites list — is unchanged. -/
theorem addFavorite_spec (u bid : Nat) (s : DB) :
    ((¬ ∃ b ∈ s.books, b.alive = true ∧ b.id = bid) →
      addFavorite u bid s = (.error "book not found", s)) ∧
    ((∃ b ∈ s.books, b.alive = true ∧ b.id = bid) →
      (∃ f ∈ s.favorites, f.alive = true ∧ f.userID = u ∧ f.bookID = bid) →
      addFavorite u bid s = (.error "already in favorites", s)) ∧
    (∀ bk ∈ s.books, bk.alive = true → bk.id = bid →
      (∀ b ∈ s.books, b.alive = true → b.id = bid → b = bk) →
      (¬ ∃ f ∈ s.favorites, f.alive = true ∧ f.userID = u ∧ f.bookID = bid) →
      addFavorite u bid s =
        (.ok ⟨s.nextFavoriteID, u, bid, s.now, toBookResponse bk⟩,
         { s with favorites := s.favorites ++ [⟨s.nextFavoriteID, u, bid, s.now, none⟩],
                  nextFavoriteID := s.nextFavoriteID + 1 })) := by
  refine ⟨?_, ?_, ?_⟩
  · intro hno
    have hnone : bookFindByID bid s.books = none := bookFindByID_eq_none_iff.mpr hno
    simp [addFavorite, hnone]
  · intro hex hfav
    have hsome : ∃ bk, sqlFirstBook (fun b => b.alive && b.id == bid) s.books = some bk ∧
        bk ∈ s.books ∧ (bk.alive && bk.id == bid) = true := by
      apply sqlFirstBook_isSome_of_exists
      rcases hex with ⟨b, hb, hal, hid⟩
      exact ⟨b, hb, by simp [hal, hid]⟩
    rcases hsome with ⟨bk, hbk, _, _⟩
    have hfe : favoriteExists u bid s.favorites = true := favoriteExists_iff.mpr hfav
    simp [addFavorite, bookFindByID, hbk, hfe]
  · intro bk hmem hal hid huniq hnofav
    have hbk : bookFindByID bid s.books = some bk := by
      apply sqlFirstBook_eq_of_unique (hmem) (by simp [hal, hid])
      intro b hb hc
      simp only [Bool.and_eq_true, beq_iff_eq] at hc
      exact huniq b hb hc.1 hc.2
    have hfe : favoriteExists u bid s.favorites = false := by
      rw [Bool.eq_false_iff]
      intro hc
      exact hnofav (favoriteExists_iff.mp hc)
    have hbk2 : bookFindByID bid
        ({ s with favorites := s.favorites ++ [⟨s.nextFavoriteID, u, bid, s.now, none⟩],
                  nextFavoriteID := s.nextFavoriteID + 1 } : DB).books = some bk := hbk
    simp [addFavorite, hbk, hfe, hbk2]

/-- Claim C4 witness: adding a favorite for a book id with no row at all
fails with NotFound and leaves the empty state unchanged. -/
theorem addFavorite_spec_witness :
    addFavorite 1 5 ⟨[], [], 1, 1, 0⟩ = (.error "book not found", ⟨[], [], 1, 1, 0⟩) :=
  (addFavorite_spec 1 5 ⟨[], [], 1, 1, 0⟩).1 (by simp)

theorem findByTitle_eq_none_iff {t : String} {books : List Book} :
    findByTitle t books = none ↔ ¬ ∃ b ∈ books, b.alive = true ∧ b.title = t := by
  rw [findByTitle, sqlFirstBook_eq_none_iff]
  constructor
  · rintro h ⟨b, hb, hal, ht⟩
    have := h b hb
    simp [hal, ht] at this
  · intro h b hb
    rw [Bool.eq_false_iff]
    intro hc
    simp only [Bool.and_eq_true, beq_iff_eq] at hc
    exact h ⟨b, hb, hc.1, hc.2⟩

/-- The title-uniqueness invariant the system maintains among non-deleted
rows (section 3 of the specification). -/
def uniqueTitles (books : List Book) : Prop :=
  ∀ b1 ∈ books, ∀ b2 ∈ books, b1.alive = true → b2.alive = true → b1.title = b2.title → b1 = b2

/-- Claim C5: createBook and updateBook validate first (the validation
message wins over every later check), then fail with the duplicate-title
error exactly when another non-deleted book carries the same title
(excluding the record itself on update, stated under the title-uniqueness
invariant); updateBook fails with the not-found error when no non-deleted
book has the target id; every failure leaves the state unchanged, and the
non-failing runs perform the insert or the in-place update. -/
theorem createBook_updateBook_spec (book : Book) (s : DB) :
    (∀ msg, validateBook book = some msg →
      createBook book s = (.error msg, s) ∧ updateBook book s = (.error msg, s)) ∧
    (validateBook book = none →
      ((∃ b ∈ s.books, b.alive = true ∧ b.title = book.title) →
        createBook book s = (.error "book with this title already exists", s)) ∧
      ((¬ ∃ b ∈ s.books, b.alive = true ∧ b.title = book.title) →
        createBook book s = (.ok (), bookCreate book s)) ∧
      ((¬ ∃ b ∈ s.books, b.alive = true ∧ b.id = book.id) →
        updateBook book s = (.error "book not found", s)) ∧
      ((∃ b ∈ s.books, b.alive = true ∧ b.id = book.id) →
        (uniqueTitles s.books →
          (∃ b ∈ s.books, b.alive = true ∧ b.title = book.title ∧ b.id ≠ book.id) →
          updateBook book s = (.error "book with this title already exists", s)) ∧
        ((¬ ∃ b ∈ s.books, b.alive = true ∧ b.title = book.title ∧ b.id ≠ book.id) →
          updateBook book s = (.ok (), { s with books := bookUpdate book s.now s.books })))) := by
  refine ⟨?_, ?_⟩
  · intro msg hmsg
    constructor <;> simp [createBook, updateBook, hmsg]
  · intro hv
    refine ⟨?_, ?_, ?_, ?_⟩
    · intro hdup
      have hsome : ∃ bk, sqlFirstBook (fun b => b.alive && b.title == book.title) s.books = some bk ∧
          bk ∈ s.books ∧ (bk.alive && bk.title == book.title) = true := by
        apply sqlFirstBook_isSome_of_exists
        rcases hdup with ⟨b, hb, hal, ht⟩
        exact ⟨b, hb, by simp [hal, ht]⟩
      rcases hsome with ⟨bk, hbk, _, _⟩
      simp [createBook, hv, findByTitle, hbk]
    · intro hno
      have hnone : findByTitle book.title s.books = none := findByTitle_eq_none_iff.mpr hno
      simp [createBook, hv, hnone]
    · intro hno
      have hex : bookExists book.id s.books = false := by
        rw [Bool.eq_false_iff]
        intro hc
        exact hno (bookExists_iff.mp hc)
      simp [updateBook, hv, hex]
    · intro hidex
      have hex : bookExists book.id s.books = true := bookExists_iff.mpr hidex
      constructor
      · intro huniq hdup
        rcases hdup with ⟨b, hb, hal, ht, hne⟩
        have hbk : findByTitle book.title s.books = some b := by
          apply sqlFirstBook_eq_of_unique hb (by simp [hal, ht])
          intro b2 hb2 hc
          simp only [Bool.and_eq_true, beq_iff_eq] at hc
          exact huniq b2 hb2 b hb hc.1 hal (hc.2.trans ht.symm)
        simp [updateBook, hv, hex, hbk, hne]
      · intro hnodup
        rcases hfb : findByTitle book.title s.books with _ | b2
        · simp [updateBook, hv, hex, hfb]
        · have hm := sqlFirstBook_some_mem hfb
          simp only [Bool.and_eq_true, beq_iff_eq] at hm
          have hid2 : b2.id = book.id := by
            by_contra hne
            exact hnodup ⟨b2, hm.1, hm.2.1, hm.2.2, hne⟩
          simp [updateBook, hv, hex, hfb, hid2]

/-- Claim C5 witness: creating a second book titled Dune over a live row
with the same title fails with the duplicate error and leaves the state
unchanged. -/
theorem createBook_updateBook_spec_witness :
    createBook ⟨0, "Dune", "x", "y", 0, 0, none⟩
        ⟨[⟨1, "Dune", "Frank Herbert", "Science Fiction", 1, 1, none⟩], [], 2, 1, 9⟩ =
      (.error "book with this title already exists",
       ⟨[⟨1, "Dune", "Frank Herbert", "Science Fiction", 1, 1, none⟩], [], 2, 1, 9⟩) := by
  have h := createBook_updateBook_spec ⟨0, "Dune", "x", "y", 0, 0, none⟩
    ⟨[⟨1, "Dune", "Frank Herbert", "Science Fiction", 1, 1, none⟩], [], 2, 1, 9⟩
  exact (h.2 (by rfl)).1 ⟨_, List.mem_cons_self _ _, rfl, rfl⟩

theorem relevanceLe_eq_true_iff (t : String) (a b : Book) :
    relevanceLe t a b = true ↔
      (relevanceRank t a < relevanceRank t b ∨
       (relevanceRank t a = relevanceRank t b ∧ strLe a.title b.title = true)) := by
  simp [relevanceLe]

/-- Claim C6: the relevance rank of a book for the raw query term is 1 on
an exact title match, 2 on a proper title prefix match, 3 on a further
title containment match, 4 on a further author containment match and 5
otherwise (the CASE arms apply in order); the relevance branch of
AdvancedSearch orders its result by this rank with title ascending as
secondary key; and the result of the relevance branch does not depend on
the requested search type. -/
theorem relevance_ranking_spec (term : String) (b : Book)
    (p : AdvancedSearchParams) (books : List Book) :
    (relevanceRank term b = 1 ↔ b.title = term) ∧
    (relevanceRank term b = 2 ↔ b.title ≠ term ∧ likeStartsWith b.title term = true) ∧
    (relevanceRank term b = 3 ↔
      b.title ≠ term ∧ likeStartsWith b.title term = false ∧ likeContains b.title term = true) ∧
    (relevanceRank term b = 4 ↔
      b.title ≠ term ∧ likeStartsWith b.title term = false ∧ likeContains b.title term = false ∧
      likeContains b.author term = true) ∧
    (relevanceRank term b = 5 ↔
      b.title ≠ term ∧ likeStartsWith b.title term = false ∧ likeContains b.title term = false ∧
      likeContains b.author term = false) ∧
    (p.sortBy = "relevance" → p.query ≠ "" →
      List.Pairwise (fun a c =>
        relevanceRank (goTrimSpace p.query) a < relevanceRank (goTrimSpace p.query) c ∨
        (relevanceRank (goTrimSpace p.query) a = relevanceRank (goTrimSpace p.query) c ∧
          strLe a.title c.title = true)) (advancedSearchRepo p books)) ∧
    (∀ t1 t2 : String,
      advancedSearchRepo { p with searchType := t1, sortBy := "relevance" } books =
      advancedSearchRepo { p with searchType := t2, sortBy := "relevance" } books) := by
  refine ⟨?_, ?_, ?_, ?_, ?_, ?_, ?_⟩
  · unfold relevanceRank; split_ifs with h1 h2 h3 h4 <;> simp_all
  · unfold relevanceRank; split_ifs with h1 h2 h3 h4 <;> simp_all
  · unfold relevanceRank; split_ifs with h1 h2 h3 h4 <;> simp_all
  · unfold relevanceRank; split_ifs with h1 h2 h3 h4 <;> simp_all
  · unfold relevanceRank; split_ifs with h1 h2 h3 h4 <;> simp_all
  · intro hsb hq
    have hrepo : advancedSearchRepo p books =
        sqlOrderBy (relevanceLe (goTrimSpace p.query)) (aliveBooks books) := by
      simp [advancedSearchRepo, hsb, bne_iff_ne, hq]
    rw [hrepo]
    refine List.Pairwise.imp ?_ (sqlOrderBy_pairwise _ (relevanceLe_total _) (relevanceLe_trans _) _)
    intro a c h
    exact (relevanceLe_eq_true_iff _ a c).mp h
  · intro t1 t2
    by_cases hq : (p.query != "") = true
    · simp [advancedSearchRepo, hq]
    · simp [advancedSearchRepo, advancedFilteredRows, hq]

/-- Claim C6 witness: on a two-book table the relevance result for the
query Harry is ordered by the rank-then-title key, and the exact title
Harry gets rank 1. -/
theorem relevance_ranking_spec_witness :
    (relevanceRank "Harry" ⟨2, "Harry", "X", "f", 0, 0, none⟩ = 1 ↔
      ("Harry" : String) = "Harry") ∧
    List.Pairwise (fun a c =>
      relevanceRank "Harry" a < relevanceRank "Harry" c ∨
      (relevanceRank "Harry" a = relevanceRank "Harry" c ∧ strLe a.title c.title = true))
      (advancedSearchRepo ⟨"Harry", "", "", "contains", "relevance", "ASC", 20, 0⟩
        [⟨1, "Harry Potter", "JKR", "f", 0, 0, none⟩, ⟨2, "Harry", "X", "f", 0, 0, none⟩]) := by
  have h := relevance_ranking_spec "Harry" ⟨2, "Harry", "X", "f", 0, 0, none⟩
    ⟨"Harry", "", "", "contains", "relevance", "ASC", 20, 0⟩
    [⟨1, "Harry Potter", "JKR", "f", 0, 0, none⟩, ⟨2, "Harry", "X", "f", 0, 0, none⟩]
  refine ⟨h.1, ?_⟩
  have hp := h.2.2.2.2.2.1 rfl (by decide)
  simpa [show goTrimSpace "Harry" = "Harry" from rfl] using hp

theorem advancedSearchRepo_relevance_empty (p : AdvancedSearchParams) (books : List Book)
    (hq : p.query = "") (hsb : p.sortBy = "relevance") :
    advancedSearchRepo p books =
      paginate p.limit p.offset
        (sqlOrderBy (fun a b => strLe a.title b.title) (advancedFilteredRows p books)) := by
  simp [advancedSearchRepo, hsb, hq]

theorem pairwise_title_advRepo (p : AdvancedSearchParams) (books : List Book)
    (hq : p.query = "") (hsb : p.sortBy = "relevance") :
    List.Pairwise (fun a b => strLe a.title b.title = true) (advancedSearchRepo p books) := by
  rw [advancedSearchRepo_relevance_empty p books hq hsb]
  exact List.Pairwise.sublist (paginate_sublist _ _ _)
    (sqlOrderBy_pairwise _ (fun a b => strLe_total a.title b.title)
      (fun a b c h1 h2 => strLe_trans h1 h2) _)

theorem advancedSearchRepo_relevance_sortOrder
    (qu ca au st so1 so2 : String) (l off : Int) (books : List Book) :
    advancedSearchRepo ⟨qu, ca, au, st, "relevance", so1, l, off⟩ books =
      advancedSearchRepo ⟨qu, ca, au, st, "relevance", so2, l, off⟩ books := by
  by_cases hq : (qu != "") = true
  · simp [advancedSearchRepo, hq]
  · simp [advancedSearchRepo, advancedFilteredRows, hq]

theorem applyDefaults_mk (qu ca au st sb so : String) (l off : Int) :
    applyDefaults ⟨qu, ca, au, st, sb, so, l, off⟩ =
      ⟨qu, ca, au,
       if st == "" then "contains" else st,
       if sb == "" then "relevance" else sb,
       if so == "" then "ASC" else so,
       if l ≤ 0 || l > 100 then 20 else l,
       if off < 0 then 0 else off⟩ := by
  simp only [applyDefaults]
  split_ifs <;> simp_all

theorem serviceAdvancedSearch_ok_shape {p : AdvancedSearchParams} {books : List Book}
    {rows : List Book} (h : serviceAdvancedSearch p books = .ok rows) :
    rows = advancedSearchRepo (applyDefaults p) books := by
  simp only [serviceAdvancedSearch] at h
  split_ifs at h <;> simp_all

/-- Claim C10: with an empty query and sortBy relevance — or sortBy
omitted, in which case the service defaults it to relevance — the
advanced search returns rows ordered by title ascending, and the
requested sortOrder (any accepted value: omitted, ASC or DESC) has no
effect on the result. -/
theorem advancedSearch_emptyQuery_title_asc
    (ca au st sb so : String) (l off : Int) (books : List Book)
    (hsb : sb = "" ∨ sb = "relevance") :
    (∀ rows, serviceAdvancedSearch ⟨"", ca, au, st, sb, so, l, off⟩ books = .ok rows →
      List.Pairwise (fun a b => strLe a.title b.title = true) rows) ∧
    (∀ o1 o2, (o1 = "" ∨ o1 = "ASC" ∨ o1 = "DESC") → (o2 = "" ∨ o2 = "ASC" ∨ o2 = "DESC") →
      serviceAdvancedSearch ⟨"", ca, au, st, sb, o1, l, off⟩ books =
        serviceAdvancedSearch ⟨"", ca, au, st, sb, o2, l, off⟩ books) := by
  constructor
  · intro rows h
    rw [serviceAdvancedSearch_ok_shape h, applyDefaults_mk]
    apply pairwise_title_advRepo _ books rfl
    rcases hsb with rfl | rfl <;> rfl
  · have key : ∀ o, (o = "" ∨ o = "ASC" ∨ o = "DESC") →
        serviceAdvancedSearch ⟨"", ca, au, st, sb, o, l, off⟩ books =
          serviceAdvancedSearch ⟨"", ca, au, st, sb, "ASC", l, off⟩ books := by
      intro o ho
      have hsb2 : (if sb == "" then "relevance" else sb) = "relevance" := by
        rcases hsb with rfl | rfl <;> rfl
      rcases ho with rfl | rfl | rfl
      · unfold serviceAdvancedSearch
        rw [applyDefaults_mk, applyDefaults_mk]
        simp
      · rfl
      · unfold serviceAdvancedSearch
        rw [applyDefaults_mk, applyDefaults_mk, hsb2]
        split_ifs <;> rfl
    intro o1 o2 ho1 ho2
    exact (key o1 ho1).trans (key o2 ho2).symm

/-- Claim C10 witness: with an empty query and omitted sortBy the two
books come back ordered by title, and ASC versus DESC makes no
difference. -/
theorem advancedSearch_emptyQuery_title_asc_witness :
    List.Pairwise (fun a b => strLe a.title b.title = true)
      [(⟨2, "a", "y", "c", 0, 0, none⟩ : Book), ⟨1, "b", "x", "c", 0, 0, none⟩] ∧
    serviceAdvancedSearch ⟨"", "", "", "", "", "ASC", 0, 0⟩
        [⟨1, "b", "x", "c", 0, 0, none⟩, ⟨2, "a", "y", "c", 0, 0, none⟩] =
      serviceAdvancedSearch ⟨"", "", "", "", "", "DESC", 0, 0⟩
        [⟨1, "b", "x", "c", 0, 0, none⟩, ⟨2, "a", "y", "c", 0, 0, none⟩] := by
  have h := advancedSearch_emptyQuery_title_asc "" "" "" "" "DESC" 0 0
    [⟨1, "b", "x", "c", 0, 0, none⟩, ⟨2, "a", "y", "c", 0, 0, none⟩] (Or.inl rfl)
  refine ⟨?_, ?_⟩
  · exact h.1 [⟨2, "a", "y", "c", 0, 0, none⟩, ⟨1, "b", "x", "c", 0, 0, none⟩] (by rfl)
  · exact (h.2 "ASC" "DESC" (Or.inr (Or.inl rfl)) (Or.inr (Or.inr rfl))).symm ▸
      (h.2 "ASC" "DESC" (Or.inr (Or.inl rfl)) (Or.inr (Or.inr rfl)))
